import Mathlib

/-
Shallow embedding of the storage-backend layer of the kv_exercise repository
(src/service/backends.py), covering the KeyConflict exception class, the
InMemoryKvStore backend, and the LocalDiskKvStore backend together with its
whole-file read-mutate-rewrite protocol (_safe_op).

Modelling conventions:
  * A Python dict mapping keys to values is an association list with unique
    keys; the dict primitives used by the code (membership, subscript read,
    subscript assignment, pop) are the functions lookup, setKey, popKey below.
  * Values are the closed scalar set {string, number, boolean, null}; Python
    None is Value.vNull.  Note that the None returned by replace for an absent
    key is the very same object as a stored null.
  * A raised exception is an Except.error carrying an Err; each backend method
    becomes a function from the pre-state to (result, post-state).  The state
    of InMemoryKvStore is its kv_store dict; the state of LocalDiskKvStore is
    the contents of the backing file kv_file.
  * Logging (logger.info) and the transaction id g.txn_id carry no semantic
    weight and are elided; the per-instance threading.Lock serializes the
    operations of one instance, so single-operation semantics are modelled
    directly.
  * pickle.load on bytes that do not decode to a store raises
    pickle.UnpicklingError; this is the StorageCorruption error kind of the
    design.  Python KeyError is the KeyNotFound kind.
-/

namespace KvExercise

/-- Scalar values storable in the KV store: string, number, boolean, or null.
Python None is vNull; it is both the stored null value and the object that
replace returns when the key was absent. -/
inductive Value where
  | vStr (s : String)
  | vNum (n : Int)
  | vBool (b : Bool)
  | vNull
deriving DecidableEq, Repr

/-- The kv_store dict of a backend: an association list from keys to values.
Python dicts keep at most one binding per key; stores reachable from the empty
dict keep their key list Nodup (proved below). -/
abbrev Store := List (String × Value)

/-- Exceptions raised by the backend layer. -/
inductive Err where
  /-- KeyConflict(key, old_value, new_value): raised by InMemoryKvStore.create
  when the key is already present; carries the key, the pre-existing value and
  the attempted value. -/
  | keyConflict (key : String) (old_value new_value : Value)
  /-- Python KeyError(key), raised by dict subscripting and dict.pop on an
  absent key: the KeyNotFound kind of the design. -/
  | keyError (key : String)
  /-- Python TypeError.  LocalDiskKvStore._create executes
  raise KeyConflict(key, kv_store[key]) with only two arguments, while
  KeyConflict.__init__ requires (key, old_value, new_value); evaluating the
  constructor call therefore raises TypeError before any KeyConflict value
  exists. -/
  | typeError
  /-- pickle.UnpicklingError: pickle.load could not decode the backing file.
  This is the StorageCorruption kind of the design. -/
  | unpicklingError
deriving DecidableEq, Repr

/-- Dict read, key in kv_store / kv_store[key]: the value bound to k, if any.
A Python dict holds at most one binding per key; on lists with duplicate keys
this returns the first binding, matching dict semantics on Nodup key lists. -/
def lookup (s : Store) (k : String) : Option Value :=
  match s with
  | [] => none
  | (k', v') :: rest => if k' = k then some v' else lookup rest k

/-- Dict assignment, kv_store[key] = value: overwrite the binding in place if
the key is present, otherwise append the new binding (Python dicts preserve
insertion order). -/
def setKey (s : Store) (k : String) (v : Value) : Store :=
  match s with
  | [] => [(k, v)]
  | (k', v') :: rest => if k' = k then (k, v) :: rest else (k', v') :: setKey rest k v

/-- Dict pop, kv_store.pop(key): remove the binding of k and return its value;
none models the KeyError raised when k is absent. -/
def popKey (s : Store) (k : String) : Option (Value × Store) :=
  match s with
  | [] => none
  | (k', v') :: rest =>
    if k' = k then some (v', rest)
    else (popKey rest k).map fun p => (p.1, (k', v') :: p.2)

/-- Requests a caller can issue against a backend: the four operations of the
backend contract, with their key and value arguments. -/
inductive Op where
  | create (key : String) (value : Value)
  | replace (key : String) (value : Value)
  | delete (key : String)
  | get (key : String)
deriving DecidableEq, Repr

/-- Return payload of one backend call: unit models the implicit Python None
returned by create; val carries the value returned by replace, delete or get. -/
inductive Ret where
  | unit
  | val (v : Value)
deriving DecidableEq, Repr

namespace InMemoryKvStore

/-- InMemoryKvStore.create: if the key is present, log and raise
KeyConflict(key, self.kv_store[key], value) before any mutation; otherwise
perform self.kv_store[key] = value.  The method body ends without a return
statement, so a successful call returns None (unit). -/
def create (s : Store) (key : String) (value : Value) : Except Err Unit × Store :=
  match lookup s key with
  | some old_value => (.error (.keyConflict key old_value value), s)
  | none => (.ok (), setKey s key value)

/-- InMemoryKvStore.replace: old_value is None when the key is absent (the
absence is only logged, never an error), else the current value; then
self.kv_store[key] = value and old_value is returned. -/
def replace (s : Store) (key : String) (value : Value) : Except Err Value × Store :=
  match lookup s key with
  | none => (.ok Value.vNull, setKey s key value)
  | some old_value => (.ok old_value, setKey s key value)

/-- InMemoryKvStore.delete: return self.kv_store.pop(key); pop raises
KeyError(key) when the key is absent, leaving the dict untouched. -/
def delete (s : Store) (key : String) : Except Err Value × Store :=
  match popKey s key with
  | none => (.error (.keyError key), s)
  | some p => (.ok p.1, p.2)

/-- InMemoryKvStore.get: return self.kv_store[key]; subscripting raises
KeyError(key) when the key is absent. -/
def get (s : Store) (key : String) : Except Err Value × Store :=
  match lookup s key with
  | none => (.error (.keyError key), s)
  | some v => (.ok v, s)

/-- Dispatch one request to the in-memory backend, producing the uniform
(result, post-state) pair. -/
def step (s : Store) : Op → Except Err Ret × Store
  | .create k v => ((create s k v).1.map fun _ => Ret.unit, (create s k v).2)
  | .replace k v => ((replace s k v).1.map Ret.val, (replace s k v).2)
  | .delete k => ((delete s k).1.map Ret.val, (delete s k).2)
  | .get k => ((get s k).1.map Ret.val, (get s k).2)

/-- Run a sequence of requests against one in-memory backend instance, which
is constructed with an empty dict (self.kv_store = {}); the result is the
final kv_store. -/
def run (ops : List Op) : Store :=
  ops.foldl (fun s op => (step s op).2) []

end InMemoryKvStore

/-- Contents of the backing file kv_file of a LocalDiskKvStore: either a
pickled store, or bytes that pickle.load cannot decode back into one. -/
inductive FileContent where
  | good (s : Store)
  | corrupt
deriving DecidableEq, Repr

/-- pickle.load(open_file): decode the pickled store, raising UnpicklingError
(the StorageCorruption kind) when the file contents cannot be decoded. -/
def pickleLoad : FileContent → Except Err Store
  | .good s => .ok s
  | .corrupt => .error .unpicklingError

namespace LocalDiskKvStore

/-- LocalDiskKvStore constructor: if no kv_file exists (the none case) a new
one is written holding the empty dict, pickle.dump({}, f); an existing file is
reused as-is, its contents becoming the starting store. -/
def init : Option FileContent → FileContent
  | none => .good []
  | some f => f

/-- LocalDiskKvStore._safe_op, minus the lock (which only serializes the
operations of one instance): read the file and run kv_op on it; if kv_op
raises, the exception propagates before the write block is entered, so the
file keeps its old contents and nothing is written; on success the mutated
store is pickled back over the file.  The third component records the list of
stores dumped to disk during the call, so that theorems can speak about the
write itself and not just the final contents. -/
def safeOp {α : Type} (kvOp : FileContent → Except Err (Store × α)) (f : FileContent) :
    Except Err α × FileContent × List Store :=
  match kvOp f with
  | .error e => (.error e, f, [])
  | .ok p => (.ok p.2, .good p.1, [p.1])

/-- LocalDiskKvStore._create: load the store; when the key is present the code
executes raise KeyConflict(key, kv_store[key]), passing two arguments to the
three-argument KeyConflict.__init__, so the constructor call itself raises
TypeError; otherwise bind the key and return (kv_store, value). -/
def opCreate (key : String) (value : Value) (f : FileContent) : Except Err (Store × Value) :=
  (pickleLoad f).bind fun kv_store =>
    match lookup kv_store key with
    | some _ => .error .typeError
    | none => .ok (setKey kv_store key value, value)

/-- LocalDiskKvStore._replace: load the store; old_value is None when the key
is absent (only logged), else the current value; bind the key and return
(kv_store, old_value). -/
def opReplace (key : String) (value : Value) (f : FileContent) : Except Err (Store × Value) :=
  (pickleLoad f).bind fun kv_store =>
    match lookup kv_store key with
    | none => .ok (setKey kv_store key value, Value.vNull)
    | some old_value => .ok (setKey kv_store key value, old_value)

/-- LocalDiskKvStore._delete: load the store; value = kv_store.pop(key), which
raises KeyError(key) when the key is absent; return (kv_store, value). -/
def opDelete (key : String) (f : FileContent) : Except Err (Store × Value) :=
  (pickleLoad f).bind fun kv_store =>
    match popKey kv_store key with
    | none => .error (.keyError key)
    | some p => .ok (p.2, p.1)

/-- LocalDiskKvStore._get: load the store; read kv_store[key], which raises
KeyError(key) when the key is absent; return the store unchanged together with
the value, so _safe_op writes back exactly what was read. -/
def opGet (key : String) (f : FileContent) : Except Err (Store × Value) :=
  (pickleLoad f).bind fun kv_store =>
    match lookup kv_store key with
    | none => .error (.keyError key)
    | some v => .ok (kv_store, v)

/-- LocalDiskKvStore.create: run _create under _safe_op and discard its value;
the method body has no return statement, so a successful call returns None. -/
def create (key : String) (value : Value) (f : FileContent) :
    Except Err Unit × FileContent × List Store :=
  ((safeOp (opCreate key value) f).1.map fun _ => (), (safeOp (opCreate key value) f).2)

/-- LocalDiskKvStore.replace: run _replace under _safe_op and return its
value, the previous value of the key or None. -/
def replace (key : String) (value : Value) (f : FileContent) :
    Except Err Value × FileContent × List Store :=
  safeOp (opReplace key value) f

/-- LocalDiskKvStore.delete: run _delete under _safe_op and return the deleted
value. -/
def delete (key : String) (f : FileContent) : Except Err Value × FileContent × List Store :=
  safeOp (opDelete key) f

/-- LocalDiskKvStore.get: run _get under _safe_op and return the value. -/
def get (key : String) (f : FileContent) : Except Err Value × FileContent × List Store :=
  safeOp (opGet key) f

/-- Dispatch one request to the disk-backed backend, producing the uniform
(result, file contents after the call, stores written during the call). -/
def step (f : FileContent) : Op → Except Err Ret × FileContent × List Store
  | .create k v => ((create k v f).1.map fun _ => Ret.unit, (create k v f).2)
  | .replace k v => ((replace k v f).1.map Ret.val, (replace k v f).2)
  | .delete k => ((delete k f).1.map Ret.val, (delete k f).2)
  | .get k => ((get k f).1.map Ret.val, (get k f).2)

/-- Run a sequence of requests against a disk-backed backend constructed with
no pre-existing kv_file; the result is the final file contents. -/
def run (ops : List Op) : FileContent :=
  ops.foldl (fun f op => (step f op).2.1) (init none)

end LocalDiskKvStore

/-- Observable contents of kv_file during the write block of _safe_op.  The
code opens the target file itself, open(self.filename, 'wb'), which truncates
kv_file at open time, and pickle.dump then streams the new serialization into
it; no temporary file and no rename are involved.  A read after an
interruption partway through the write therefore observes the old contents
(before the open), or a truncated / partly written file that pickle.load can
no longer decode (after the open, before the dump completes), or the new
contents (after the dump completes). -/
def LocalDiskKvStore.inPlaceWriteStates (old : FileContent) (new : Store) : List FileContent :=
  [old, .corrupt, .good new]

/-- Modelled from the spec: the write discipline the crash-atomicity property
of the specification assumes — serialize into a temporary file, then commit
with an atomic rename over kv_file — under which the target file only ever
holds the fully-old or the fully-new store.  The source's _safe_op does not
implement this; the definition exists to compare the two write paths. -/
def tempFileRenameWriteStates (old : FileContent) (new : Store) : List FileContent :=
  [old, .good new]

/-- Concrete key used by the closed witness and counterexample theorems. -/
def keyA : String := "foo"

/-- Second concrete key used by the closed witness theorems. -/
def keyB : String := "bar"

theorem lookup_setKey_self (s : Store) (k : String) (v : Value) :
    lookup (setKey s k v) k = some v := by
  induction s with
  | nil => simp [setKey, lookup]
  | cons p rest ih =>
    obtain ⟨k', v'⟩ := p
    by_cases hk : k' = k
    · simp [setKey, hk, lookup]
    · simp [setKey, hk, lookup, ih]

theorem lookup_eq_none_iff (s : Store) (k : String) :
    lookup s k = none ↔ k ∉ s.map Prod.fst := by
  induction s with
  | nil => simp [lookup]
  | cons p rest ih =>
    obtain ⟨k', v'⟩ := p
    by_cases hk : k' = k
    · simp [lookup, hk]
    · simp [lookup, hk, ih, Ne.symm hk]

theorem map_fst_setKey (s : Store) (k : String) (v : Value) :
    (setKey s k v).map Prod.fst
      = if k ∈ s.map Prod.fst then s.map Prod.fst else s.map Prod.fst ++ [k] := by
  induction s with
  | nil => simp [setKey]
  | cons p rest ih =>
    obtain ⟨k', v'⟩ := p
    by_cases hk : k' = k
    · simp [setKey, hk]
    · by_cases hm : k ∈ rest.map Prod.fst
      · simp [setKey, hk, ih, hm, Ne.symm hk]
      · simp [setKey, hk, ih, hm, Ne.symm hk]

theorem nodup_setKey (s : Store) (k : String) (v : Value)
    (h : (s.map Prod.fst).Nodup) : ((setKey s k v).map Prod.fst).Nodup := by
  rw [map_fst_setKey]
  by_cases hk : k ∈ s.map Prod.fst
  · simpa [hk]
  · simp [hk, List.nodup_append, h]

theorem popKey_eq_none_iff (s : Store) (k : String) :
    popKey s k = none ↔ lookup s k = none := by
  induction s with
  | nil => simp [popKey, lookup]
  | cons p rest ih =>
    obtain ⟨k', v'⟩ := p
    by_cases hk : k' = k
    · simp [popKey, lookup, hk]
    · simp [popKey, lookup, hk, ih]

theorem popKey_lookup (s : Store) (k : String) (v : Value) (h : lookup s k = some v) :
    ∃ s', popKey s k = some (v, s') := by
  induction s with
  | nil => simp [lookup] at h
  | cons p rest ih =>
    obtain ⟨k', v'⟩ := p
    by_cases hk : k' = k
    · simp [lookup, hk] at h
      exact ⟨rest, by simp [popKey, hk, h]⟩
    · simp [lookup, hk] at h
      obtain ⟨s', hs'⟩ := ih h
      exact ⟨(k', v') :: s', by simp [popKey, hk, hs']⟩

theorem popKey_sublist (s : Store) (k : String) (p : Value × Store)
    (h : popKey s k = some p) : p.2.Sublist s := by
  induction s generalizing p with
  | nil => simp [popKey] at h
  | cons q rest ih =>
    obtain ⟨k', v'⟩ := q
    by_cases hk : k' = k
    · simp [popKey, hk] at h
      rw [← h]
      exact (List.sublist_cons_self _ _)
    · simp [popKey, hk] at h
      obtain ⟨w, s', hp', rfl⟩ := h
      exact List.Sublist.cons₂ _ (ih (w, s') hp')

theorem lookup_popKey_self (s : Store) (k : String) (p : Value × Store)
    (hnd : (s.map Prod.fst).Nodup) (h : popKey s k = some p) :
    lookup p.2 k = none := by
  induction s generalizing p with
  | nil => simp [popKey] at h
  | cons q rest ih =>
    obtain ⟨k', v'⟩ := q
    simp only [List.map_cons, List.nodup_cons] at hnd
    by_cases hk : k' = k
    · simp [popKey, hk] at h
      rw [← h]
      exact (lookup_eq_none_iff rest k).2 (hk ▸ hnd.1)
    · simp [popKey, hk] at h
      obtain ⟨w, s', hp', rfl⟩ := h
      simpa [lookup, hk] using ih (w, s') hnd.2 hp'

theorem mem_value_unique (l : Store) (k : String) (v₁ v₂ : Value)
    (hnd : (l.map Prod.fst).Nodup) (h₁ : (k, v₁) ∈ l) (h₂ : (k, v₂) ∈ l) : v₁ = v₂ := by
  induction l with
  | nil => simp at h₁
  | cons q rest ih =>
    obtain ⟨k', v'⟩ := q
    simp only [List.map_cons, List.nodup_cons] at hnd
    rcases List.mem_cons.1 h₁ with e₁ | m₁
    · rcases List.mem_cons.1 h₂ with e₂ | m₂
      · rw [Prod.mk.injEq] at e₁ e₂
        exact e₁.2.trans e₂.2.symm
      · exfalso
        apply hnd.1
        rw [Prod.mk.injEq] at e₁
        rw [← e₁.1]
        exact List.mem_map.2 ⟨(k, v₂), m₂, rfl⟩
    · rcases List.mem_cons.1 h₂ with e₂ | m₂
      · exfalso
        apply hnd.1
        rw [Prod.mk.injEq] at e₂
        rw [← e₂.1]
        exact List.mem_map.2 ⟨(k, v₁), m₁, rfl⟩
      · exact ih hnd.2 m₁ m₂

theorem except_map_eq_error {α β : Type} (g : α → β) (r : Except Err α) (e : Err)
    (h : r.map g = Except.error e) : r = Except.error e := by
  cases r with
  | error e' => simpa [Except.map] using h
  | ok a => simp [Except.map] at h

theorem except_map_eq_ok {α β : Type} (g : α → β) (r : Except Err α) (b : β)
    (h : r.map g = Except.ok b) : ∃ a, r = Except.ok a ∧ g a = b := by
  cases r with
  | error e => simp [Except.map] at h
  | ok a => exact ⟨a, rfl, by simpa [Except.map] using h⟩

theorem InMemoryKvStore.create_present (s : Store) (k : String) (v o : Value)
    (hl : lookup s k = some o) :
    InMemoryKvStore.create s k v = (Except.error (Err.keyConflict k o v), s) := by
  unfold InMemoryKvStore.create
  rw [hl]

theorem InMemoryKvStore.create_absent (s : Store) (k : String) (v : Value)
    (hl : lookup s k = none) :
    InMemoryKvStore.create s k v = (Except.ok (), setKey s k v) := by
  unfold InMemoryKvStore.create
  rw [hl]

theorem InMemoryKvStore.replace_present (s : Store) (k : String) (v o : Value)
    (hl : lookup s k = some o) :
    InMemoryKvStore.replace s k v = (Except.ok o, setKey s k v) := by
  unfold InMemoryKvStore.replace
  rw [hl]

theorem InMemoryKvStore.replace_absent (s : Store) (k : String) (v : Value)
    (hl : lookup s k = none) :
    InMemoryKvStore.replace s k v = (Except.ok Value.vNull, setKey s k v) := by
  unfold InMemoryKvStore.replace
  rw [hl]

theorem InMemoryKvStore.delete_present (s s' : Store) (k : String) (v : Value)
    (hp : popKey s k = some (v, s')) :
    InMemoryKvStore.delete s k = (Except.ok v, s') := by
  unfold InMemoryKvStore.delete
  rw [hp]

theorem InMemoryKvStore.delete_absent (s : Store) (k : String)
    (hp : popKey s k = none) :
    InMemoryKvStore.delete s k = (Except.error (Err.keyError k), s) := by
  unfold InMemoryKvStore.delete
  rw [hp]

theorem InMemoryKvStore.get_present (s : Store) (k : String) (v : Value)
    (hl : lookup s k = some v) :
    InMemoryKvStore.get s k = (Except.ok v, s) := by
  unfold InMemoryKvStore.get
  rw [hl]

theorem InMemoryKvStore.get_absent (s : Store) (k : String)
    (hl : lookup s k = none) :
    InMemoryKvStore.get s k = (Except.error (Err.keyError k), s) := by
  unfold InMemoryKvStore.get
  rw [hl]

theorem LocalDiskKvStore.opCreate_present (s : Store) (k : String) (v o : Value)
    (hl : lookup s k = some o) :
    LocalDiskKvStore.opCreate k v (FileContent.good s) = Except.error Err.typeError := by
  unfold LocalDiskKvStore.opCreate
  simp only [pickleLoad, Except.bind]
  rw [hl]

theorem LocalDiskKvStore.opCreate_absent (s : Store) (k : String) (v : Value)
    (hl : lookup s k = none) :
    LocalDiskKvStore.opCreate k v (FileContent.good s)
      = Except.ok (setKey s k v, v) := by
  unfold LocalDiskKvStore.opCreate
  simp only [pickleLoad, Except.bind]
  rw [hl]

theorem LocalDiskKvStore.opReplace_present (s : Store) (k : String) (v o : Value)
    (hl : lookup s k = some o) :
    LocalDiskKvStore.opReplace k v (FileContent.good s)
      = Except.ok (setKey s k v, o) := by
  unfold LocalDiskKvStore.opReplace
  simp only [pickleLoad, Except.bind]
  rw [hl]

theorem LocalDiskKvStore.opReplace_absent (s : Store) (k : String) (v : Value)
    (hl : lookup s k = none) :
    LocalDiskKvStore.opReplace k v (FileContent.good s)
      = Except.ok (setKey s k v, Value.vNull) := by
  unfold LocalDiskKvStore.opReplace
  simp only [pickleLoad, Except.bind]
  rw [hl]

theorem LocalDiskKvStore.opDelete_present (s s' : Store) (k : String) (v : Value)
    (hp : popKey s k = some (v, s')) :
    LocalDiskKvStore.opDelete k (FileContent.good s) = Except.ok (s', v) := by
  unfold LocalDiskKvStore.opDelete
  simp only [pickleLoad, Except.bind]
  rw [hp]

theorem LocalDiskKvStore.opDelete_absent (s : Store) (k : String)
    (hp : popKey s k = none) :
    LocalDiskKvStore.opDelete k (FileContent.good s)
      = Except.error (Err.keyError k) := by
  unfold LocalDiskKvStore.opDelete
  simp only [pickleLoad, Except.bind]
  rw [hp]

theorem LocalDiskKvStore.opGet_present (s : Store) (k : String) (v : Value)
    (hl : lookup s k = some v) :
    LocalDiskKvStore.opGet k (FileContent.good s) = Except.ok (s, v) := by
  unfold LocalDiskKvStore.opGet
  simp only [pickleLoad, Except.bind]
  rw [hl]

theorem LocalDiskKvStore.opGet_absent (s : Store) (k : String)
    (hl : lookup s k = none) :
    LocalDiskKvStore.opGet k (FileContent.good s) = Except.error (Err.keyError k) := by
  unfold LocalDiskKvStore.opGet
  simp only [pickleLoad, Except.bind]
  rw [hl]

theorem LocalDiskKvStore.safeOp_eq_error {α : Type}
    (kvOp : FileContent → Except Err (Store × α)) (f : FileContent) (e : Err)
    (hk : kvOp f = Except.error e) :
    LocalDiskKvStore.safeOp kvOp f = (Except.error e, f, []) := by
  unfold LocalDiskKvStore.safeOp
  rw [hk]

theorem LocalDiskKvStore.safeOp_eq_ok {α : Type}
    (kvOp : FileContent → Except Err (Store × α)) (f : FileContent) (kv : Store) (a : α)
    (hk : kvOp f = Except.ok (kv, a)) :
    LocalDiskKvStore.safeOp kvOp f = (Except.ok a, FileContent.good kv, [kv]) := by
  unfold LocalDiskKvStore.safeOp
  rw [hk]

theorem LocalDiskKvStore.safeOp_error_inv {α : Type}
    (kvOp : FileContent → Except Err (Store × α)) (f : FileContent) (e : Err)
    (h : (LocalDiskKvStore.safeOp kvOp f).1 = Except.error e) :
    kvOp f = Except.error e := by
  rcases hk : kvOp f with e' | ⟨kv, a⟩
  · rw [LocalDiskKvStore.safeOp_eq_error _ _ _ hk] at h
    simp at h
    rw [h]
  · rw [LocalDiskKvStore.safeOp_eq_ok _ _ _ _ hk] at h
    simp at h

theorem LocalDiskKvStore.safeOp_ok_inv {α : Type}
    (kvOp : FileContent → Except Err (Store × α)) (f : FileContent) (a : α)
    (h : (LocalDiskKvStore.safeOp kvOp f).1 = Except.ok a) :
    ∃ kv, kvOp f = Except.ok (kv, a) := by
  rcases hk : kvOp f with e' | ⟨kv, a'⟩
  · rw [LocalDiskKvStore.safeOp_eq_error _ _ _ hk] at h
    simp at h
  · rw [LocalDiskKvStore.safeOp_eq_ok _ _ _ _ hk] at h
    simp at h
    exact ⟨kv, by rw [← h]⟩

theorem InMemoryKvStore.mem_step_error_frame (s : Store) (op : Op) (e : Err)
    (h : (InMemoryKvStore.step s op).1 = Except.error e) :
    (InMemoryKvStore.step s op).2 = s := by
  cases op with
  | create k v =>
    simp only [InMemoryKvStore.step] at h ⊢
    rcases hl : lookup s k with _ | o
    · rw [InMemoryKvStore.create_absent s k v hl] at h
      simp [Except.map] at h
    · rw [InMemoryKvStore.create_present s k v o hl]
  | replace k v =>
    simp only [InMemoryKvStore.step] at h
    rcases hl : lookup s k with _ | o
    · rw [InMemoryKvStore.replace_absent s k v hl] at h
      simp [Except.map] at h
    · rw [InMemoryKvStore.replace_present s k v o hl] at h
      simp [Except.map] at h
  | delete k =>
    simp only [InMemoryKvStore.step] at h ⊢
    rcases hp : popKey s k with _ | ⟨v, s'⟩
    · rw [InMemoryKvStore.delete_absent s k hp]
    · rw [InMemoryKvStore.delete_present s s' k v hp] at h
      simp [Except.map] at h
  | get k =>
    simp only [InMemoryKvStore.step] at h ⊢
    rcases hl : lookup s k with _ | v
    · rw [InMemoryKvStore.get_absent s k hl]
    · rw [InMemoryKvStore.get_present s k v hl] at h
      simp [Except.map] at h

theorem LocalDiskKvStore.disk_step_error_frame (f : FileContent) (op : Op) (e : Err)
    (h : (LocalDiskKvStore.step f op).1 = Except.error e) :
    (LocalDiskKvStore.step f op).2 = (f, []) := by
  cases op with
  | create k v =>
    simp only [LocalDiskKvStore.step, LocalDiskKvStore.create] at h ⊢
    rw [LocalDiskKvStore.safeOp_eq_error _ _ _ (LocalDiskKvStore.safeOp_error_inv _ _ _
      (except_map_eq_error _ _ _ (except_map_eq_error _ _ _ h)))]
  | replace k v =>
    simp only [LocalDiskKvStore.step, LocalDiskKvStore.replace] at h ⊢
    rw [LocalDiskKvStore.safeOp_eq_error _ _ _ (LocalDiskKvStore.safeOp_error_inv _ _ _
      (except_map_eq_error _ _ _ h))]
  | delete k =>
    simp only [LocalDiskKvStore.step, LocalDiskKvStore.delete] at h ⊢
    rw [LocalDiskKvStore.safeOp_eq_error _ _ _ (LocalDiskKvStore.safeOp_error_inv _ _ _
      (except_map_eq_error _ _ _ h))]
  | get k =>
    simp only [LocalDiskKvStore.step, LocalDiskKvStore.get] at h ⊢
    rw [LocalDiskKvStore.safeOp_eq_error _ _ _ (LocalDiskKvStore.safeOp_error_inv _ _ _
      (except_map_eq_error _ _ _ h))]

theorem InMemoryKvStore.nodup_step (s : Store) (op : Op)
    (h : (s.map Prod.fst).Nodup) :
    (((InMemoryKvStore.step s op).2).map Prod.fst).Nodup := by
  cases op with
  | create k v =>
    simp only [InMemoryKvStore.step]
    rcases hl : lookup s k with _ | o
    · rw [InMemoryKvStore.create_absent s k v hl]
      exact nodup_setKey s k v h
    · rw [InMemoryKvStore.create_present s k v o hl]
      exact h
  | replace k v =>
    simp only [InMemoryKvStore.step]
    rcases hl : lookup s k with _ | o
    · rw [InMemoryKvStore.replace_absent s k v hl]
      exact nodup_setKey s k v h
    · rw [InMemoryKvStore.replace_present s k v o hl]
      exact nodup_setKey s k v h
  | delete k =>
    simp only [InMemoryKvStore.step]
    rcases hp : popKey s k with _ | ⟨v, s'⟩
    · rw [InMemoryKvStore.delete_absent s k hp]
      exact h
    · rw [InMemoryKvStore.delete_present s s' k v hp]
      exact List.Nodup.sublist (List.Sublist.map Prod.fst (popKey_sublist s k (v, s') hp)) h
  | get k =>
    simp only [InMemoryKvStore.step]
    rcases hl : lookup s k with _ | v
    · rw [InMemoryKvStore.get_absent s k hl]
      exact h
    · rw [InMemoryKvStore.get_present s k v hl]
      exact h

theorem LocalDiskKvStore.step_good (s : Store) (op : Op) :
    (LocalDiskKvStore.step (FileContent.good s) op).2.1
      = FileContent.good (InMemoryKvStore.step s op).2 := by
  cases op with
  | create k v =>
    simp only [LocalDiskKvStore.step, LocalDiskKvStore.create, InMemoryKvStore.step]
    rcases hl : lookup s k with _ | o
    · rw [LocalDiskKvStore.safeOp_eq_ok _ _ _ _ (LocalDiskKvStore.opCreate_absent s k v hl),
        InMemoryKvStore.create_absent s k v hl]
    · rw [LocalDiskKvStore.safeOp_eq_error _ _ _ (LocalDiskKvStore.opCreate_present s k v o hl),
        InMemoryKvStore.create_present s k v o hl]
  | replace k v =>
    simp only [LocalDiskKvStore.step, LocalDiskKvStore.replace, InMemoryKvStore.step]
    rcases hl : lookup s k with _ | o
    · rw [LocalDiskKvStore.safeOp_eq_ok _ _ _ _ (LocalDiskKvStore.opReplace_absent s k v hl),
        InMemoryKvStore.replace_absent s k v hl]
    · rw [LocalDiskKvStore.safeOp_eq_ok _ _ _ _ (LocalDiskKvStore.opReplace_present s k v o hl),
        InMemoryKvStore.replace_present s k v o hl]
  | delete k =>
    simp only [LocalDiskKvStore.step, LocalDiskKvStore.delete, InMemoryKvStore.step]
    rcases hp : popKey s k with _ | ⟨v, s'⟩
    · rw [LocalDiskKvStore.safeOp_eq_error _ _ _ (LocalDiskKvStore.opDelete_absent s k hp),
        InMemoryKvStore.delete_absent s k hp]
    · rw [LocalDiskKvStore.safeOp_eq_ok _ _ _ _ (LocalDiskKvStore.opDelete_present s s' k v hp),
        InMemoryKvStore.delete_present s s' k v hp]
  | get k =>
    simp only [LocalDiskKvStore.step, LocalDiskKvStore.get, InMemoryKvStore.step]
    rcases hl : lookup s k with _ | v
    · rw [LocalDiskKvStore.safeOp_eq_error _ _ _ (LocalDiskKvStore.opGet_absent s k hl),
        InMemoryKvStore.get_absent s k hl]
    · rw [LocalDiskKvStore.safeOp_eq_ok _ _ _ _ (LocalDiskKvStore.opGet_present s k v hl),
        InMemoryKvStore.get_present s k v hl]

theorem LocalDiskKvStore.run_eq_good (ops : List Op) :
    ∀ s : Store,
      ops.foldl (fun f op => (LocalDiskKvStore.step f op).2.1) (FileContent.good s)
        = FileContent.good (ops.foldl (fun s op => (InMemoryKvStore.step s op).2) s) := by
  induction ops with
  | nil => intro s; rfl
  | cons op rest ih =>
    intro s
    simp only [List.foldl_cons, LocalDiskKvStore.step_good]
    exact ih _

theorem InMemoryKvStore.nodup_run_aux (ops : List Op) :
    ∀ s : Store, (s.map Prod.fst).Nodup →
      ((ops.foldl (fun s op => (InMemoryKvStore.step s op).2) s).map Prod.fst).Nodup := by
  induction ops with
  | nil => intro s h; exact h
  | cons op rest ih =>
    intro s h
    simp only [List.foldl_cons]
    exact ih _ (InMemoryKvStore.nodup_step s op h)


/-- C1: the claim says both backends fail a create on a present key with a
KeyConflict carrying the key, the existing value and the attempted value.  The
in-memory backend does, and both backends insert and succeed on an absent key;
but LocalDiskKvStore._create builds the KeyConflict with two arguments where
its constructor takes three, so the disk backend raises TypeError instead:
evaluation of both backends at the failing input, with the file unchanged and
nothing written. -/
theorem create_conflict_behavior_at_failing_input :
    InMemoryKvStore.create [(keyA, Value.vNum 1)] keyA (Value.vNum 2)
      = (Except.error (Err.keyConflict keyA (Value.vNum 1) (Value.vNum 2)),
          [(keyA, Value.vNum 1)])
    ∧ InMemoryKvStore.create [] keyA (Value.vNum 1) = (Except.ok (), [(keyA, Value.vNum 1)])
    ∧ LocalDiskKvStore.create keyA (Value.vNum 2) (FileContent.good [(keyA, Value.vNum 1)])
      = (Except.error Err.typeError, FileContent.good [(keyA, Value.vNum 1)], []) :=
  ⟨rfl, rfl, rfl⟩

/-- C2: the claim says the disk backend computes the same success/failure
outcome and payload as the in-memory backend on the same store for every
operation.  On create of a key that is already bound this fails: the in-memory
backend raises KeyConflict with the existing and attempted values, while the
disk backend raises TypeError from the mis-called KeyConflict constructor. -/
theorem backend_divergence_on_create_conflict :
    (InMemoryKvStore.step [(keyB, Value.vBool true)] (Op.create keyB Value.vNull)).1
      = Except.error (Err.keyConflict keyB (Value.vBool true) Value.vNull)
    ∧ (LocalDiskKvStore.step (FileContent.good [(keyB, Value.vBool true)])
        (Op.create keyB Value.vNull)).1
      = Except.error Err.typeError
    ∧ Err.typeError ≠ Err.keyConflict keyB (Value.vBool true) Value.vNull :=
  ⟨rfl, rfl, by decide⟩

/-- C3: a failing operation leaves the state exactly as it was: any error from
an in-memory operation leaves the kv_store dict unchanged, and any error from
a disk operation leaves the backing file unchanged and performs no write at
all. -/
theorem failed_op_leaves_state_unchanged (op : Op) (s : Store) (f : FileContent)
    (e₁ e₂ : Err) :
    ((InMemoryKvStore.step s op).1 = Except.error e₁ → (InMemoryKvStore.step s op).2 = s)
    ∧ ((LocalDiskKvStore.step f op).1 = Except.error e₂ →
        (LocalDiskKvStore.step f op).2.1 = f ∧ (LocalDiskKvStore.step f op).2.2 = []) :=
  ⟨fun h => InMemoryKvStore.mem_step_error_frame s op e₁ h,
   fun h => by
     rw [LocalDiskKvStore.disk_step_error_frame f op e₂ h]
     exact ⟨rfl, rfl⟩⟩

/-- C3 witness: the failure frame at a concrete input, a get of an absent key
on the empty in-memory store and a get against a corrupt file. -/
theorem failed_op_leaves_state_unchanged_witness :
    (InMemoryKvStore.step [] (Op.get keyA)).2 = []
    ∧ (LocalDiskKvStore.step FileContent.corrupt (Op.get keyA)).2.1 = FileContent.corrupt :=
  ⟨(failed_op_leaves_state_unchanged (Op.get keyA) [] FileContent.corrupt
      (Err.keyError keyA) Err.unpicklingError).1 rfl,
   ((failed_op_leaves_state_unchanged (Op.get keyA) [] FileContent.corrupt
      (Err.keyError keyA) Err.unpicklingError).2 rfl).1⟩

/-- C4 counterexample: the claim says the no-previous-value sentinel of replace
is distinct from a stored null.  It is not: both backends return the same
object (Python None, vNull) whether the key was bound to null or absent, so
the two situations are indistinguishable from the return payload. -/
theorem replace_sentinel_not_distinct_from_null :
    (InMemoryKvStore.replace [(keyA, Value.vNull)] keyA (Value.vBool true)).1
      = (InMemoryKvStore.replace [] keyA (Value.vBool true)).1
    ∧ (InMemoryKvStore.replace [(keyA, Value.vNull)] keyA (Value.vBool true)).1
      = Except.ok Value.vNull
    ∧ (LocalDiskKvStore.replace keyA (Value.vBool true)
        (FileContent.good [(keyA, Value.vNull)])).1
      = (LocalDiskKvStore.replace keyA (Value.vBool true) (FileContent.good [])).1 :=
  ⟨rfl, rfl, rfl⟩

/-- C4 (amended): for every backend and absent key, replace(k, v1) succeeds,
stores v1 and returns None (vNull) as the no-previous-value report — the same
object as a stored null, not a distinct sentinel; replace never fails due to
key absence; a subsequent replace(k, v2) succeeds and returns v1, and a get(k)
after it returns v2. -/
theorem replace_semantics_with_none_sentinel (s : Store) (k : String) (v₁ v₂ : Value)
    (h : lookup s k = none) :
    (InMemoryKvStore.replace s k v₁).1 = Except.ok Value.vNull
    ∧ (InMemoryKvStore.get (InMemoryKvStore.replace s k v₁).2 k).1 = Except.ok v₁
    ∧ (InMemoryKvStore.replace (InMemoryKvStore.replace s k v₁).2 k v₂).1 = Except.ok v₁
    ∧ (InMemoryKvStore.get
        (InMemoryKvStore.replace (InMemoryKvStore.replace s k v₁).2 k v₂).2 k).1
      = Except.ok v₂
    ∧ (∀ t : Store, ∃ w, (InMemoryKvStore.replace t k v₁).1 = Except.ok w)
    ∧ (LocalDiskKvStore.replace k v₁ (FileContent.good s)).1 = Except.ok Value.vNull
    ∧ (LocalDiskKvStore.replace k v₂
        (LocalDiskKvStore.replace k v₁ (FileContent.good s)).2.1).1 = Except.ok v₁
    ∧ (LocalDiskKvStore.get k
        (LocalDiskKvStore.replace k v₂
          (LocalDiskKvStore.replace k v₁ (FileContent.good s)).2.1).2.1).1 = Except.ok v₂
    ∧ (∀ t : Store, ∃ w,
        (LocalDiskKvStore.replace k v₁ (FileContent.good t)).1 = Except.ok w) := by
  have h1 : InMemoryKvStore.replace s k v₁ = (Except.ok Value.vNull, setKey s k v₁) :=
    InMemoryKvStore.replace_absent s k v₁ h
  have hsk : lookup (setKey s k v₁) k = some v₁ := lookup_setKey_self s k v₁
  have h2 : InMemoryKvStore.replace (setKey s k v₁) k v₂
      = (Except.ok v₁, setKey (setKey s k v₁) k v₂) :=
    InMemoryKvStore.replace_present (setKey s k v₁) k v₂ v₁ hsk
  have hsk2 : lookup (setKey (setKey s k v₁) k v₂) k = some v₂ :=
    lookup_setKey_self (setKey s k v₁) k v₂
  have hd1 : LocalDiskKvStore.replace k v₁ (FileContent.good s)
      = (Except.ok Value.vNull, FileContent.good (setKey s k v₁), [setKey s k v₁]) := by
    simp only [LocalDiskKvStore.replace]
    rw [LocalDiskKvStore.safeOp_eq_ok _ _ _ _ (LocalDiskKvStore.opReplace_absent s k v₁ h)]
  have hd2 : LocalDiskKvStore.replace k v₂ (FileContent.good (setKey s k v₁))
      = (Except.ok v₁, FileContent.good (setKey (setKey s k v₁) k v₂),
          [setKey (setKey s k v₁) k v₂]) := by
    simp only [LocalDiskKvStore.replace]
    rw [LocalDiskKvStore.safeOp_eq_ok _ _ _ _
      (LocalDiskKvStore.opReplace_present (setKey s k v₁) k v₂ v₁ hsk)]
  refine ⟨?_, ?_, ?_, ?_, ?_, ?_, ?_, ?_, ?_⟩
  · rw [h1]
  · rw [h1]
    show (InMemoryKvStore.get (setKey s k v₁) k).1 = Except.ok v₁
    rw [InMemoryKvStore.get_present _ k v₁ hsk]
  · rw [h1]
    show (InMemoryKvStore.replace (setKey s k v₁) k v₂).1 = Except.ok v₁
    rw [h2]
  · rw [h1]
    show (InMemoryKvStore.get (InMemoryKvStore.replace (setKey s k v₁) k v₂).2 k).1
      = Except.ok v₂
    rw [h2]
    show (InMemoryKvStore.get (setKey (setKey s k v₁) k v₂) k).1 = Except.ok v₂
    rw [InMemoryKvStore.get_present _ k v₂ hsk2]
  · intro t
    rcases hl : lookup t k with _ | o
    · exact ⟨Value.vNull, by rw [InMemoryKvStore.replace_absent t k v₁ hl]⟩
    · exact ⟨o, by rw [InMemoryKvStore.replace_present t k v₁ o hl]⟩
  · rw [hd1]
  · rw [hd1]
    show (LocalDiskKvStore.replace k v₂ (FileContent.good (setKey s k v₁))).1 = Except.ok v₁
    rw [hd2]
  · rw [hd1]
    show (LocalDiskKvStore.get k
      (LocalDiskKvStore.replace k v₂ (FileContent.good (setKey s k v₁))).2.1).1
      = Except.ok v₂
    rw [hd2]
    show (LocalDiskKvStore.get k (FileContent.good (setKey (setKey s k v₁) k v₂))).1
      = Except.ok v₂
    simp only [LocalDiskKvStore.get]
    rw [LocalDiskKvStore.safeOp_eq_ok _ _ _ _ (LocalDiskKvStore.opGet_present _ k v₂ hsk2)]
  · intro t
    rcases hl : lookup t k with _ | o
    · refine ⟨Value.vNull, ?_⟩
      simp only [LocalDiskKvStore.replace]
      rw [LocalDiskKvStore.safeOp_eq_ok _ _ _ _ (LocalDiskKvStore.opReplace_absent t k v₁ hl)]
    · refine ⟨o, ?_⟩
      simp only [LocalDiskKvStore.replace]
      rw [LocalDiskKvStore.safeOp_eq_ok _ _ _ _
        (LocalDiskKvStore.opReplace_present t k v₁ o hl)]

/-- C4 witness: the amended replace semantics at a concrete input. -/
theorem replace_semantics_with_none_sentinel_witness :
    (InMemoryKvStore.replace [] keyA (Value.vNum 1)).1 = Except.ok Value.vNull :=
  (replace_semantics_with_none_sentinel [] keyA (Value.vNum 1) (Value.vNum 2) rfl).1

/-- C5: for both backends, delete of a present key returns its value and a
subsequent get of that key fails with KeyError (the KeyNotFound kind); delete
and get of an absent key fail with KeyError and leave the store, and the
backing file, unchanged with nothing written. -/
theorem delete_then_get_semantics (s t : Store) (k : String) (v : Value)
    (hnd : (s.map Prod.fst).Nodup) (hs : lookup s k = some v) (ht : lookup t k = none) :
    (InMemoryKvStore.delete s k).1 = Except.ok v
    ∧ (InMemoryKvStore.get (InMemoryKvStore.delete s k).2 k).1
        = Except.error (Err.keyError k)
    ∧ (LocalDiskKvStore.delete k (FileContent.good s)).1 = Except.ok v
    ∧ (LocalDiskKvStore.get k (LocalDiskKvStore.delete k (FileContent.good s)).2.1).1
        = Except.error (Err.keyError k)
    ∧ InMemoryKvStore.delete t k = (Except.error (Err.keyError k), t)
    ∧ InMemoryKvStore.get t k = (Except.error (Err.keyError k), t)
    ∧ LocalDiskKvStore.delete k (FileContent.good t)
        = (Except.error (Err.keyError k), FileContent.good t, [])
    ∧ LocalDiskKvStore.get k (FileContent.good t)
        = (Except.error (Err.keyError k), FileContent.good t, []) := by
  obtain ⟨s', hp⟩ := popKey_lookup s k v hs
  have hnone : lookup s' k = none := lookup_popKey_self s k (v, s') hnd hp
  have hpn : popKey t k = none := (popKey_eq_none_iff t k).2 ht
  have hd : LocalDiskKvStore.delete k (FileContent.good s)
      = (Except.ok v, FileContent.good s', [s']) := by
    simp only [LocalDiskKvStore.delete]
    rw [LocalDiskKvStore.safeOp_eq_ok _ _ _ _ (LocalDiskKvStore.opDelete_present s s' k v hp)]
  refine ⟨?_, ?_, ?_, ?_, ?_, ?_, ?_, ?_⟩
  · rw [InMemoryKvStore.delete_present s s' k v hp]
  · rw [InMemoryKvStore.delete_present s s' k v hp]
    show (InMemoryKvStore.get s' k).1 = Except.error (Err.keyError k)
    rw [InMemoryKvStore.get_absent s' k hnone]
  · rw [hd]
  · rw [hd]
    show (LocalDiskKvStore.get k (FileContent.good s')).1 = Except.error (Err.keyError k)
    simp only [LocalDiskKvStore.get]
    rw [LocalDiskKvStore.safeOp_eq_error _ _ _ (LocalDiskKvStore.opGet_absent s' k hnone)]
  · exact InMemoryKvStore.delete_absent t k hpn
  · exact InMemoryKvStore.get_absent t k ht
  · simp only [LocalDiskKvStore.delete]
    rw [LocalDiskKvStore.safeOp_eq_error _ _ _ (LocalDiskKvStore.opDelete_absent t k hpn)]
  · simp only [LocalDiskKvStore.get]
    rw [LocalDiskKvStore.safeOp_eq_error _ _ _ (LocalDiskKvStore.opGet_absent t k ht)]

/-- C5 witness: delete of a present key at a concrete input. -/
theorem delete_then_get_semantics_witness :
    (InMemoryKvStore.delete [(keyA, Value.vNum 5)] keyA).1 = Except.ok (Value.vNum 5) :=
  (delete_then_get_semantics [(keyA, Value.vNum 5)] [] keyA (Value.vNum 5)
    (by decide) (by decide) rfl).1

/-- C6: for the disk backend, a successful create(k, v) against a freshly
constructed instance persists: constructing another instance over the
resulting file reuses the file as-is, and get(k) on it returns v; a
construction with no pre-existing file starts from the empty store. -/
theorem disk_persistence_roundtrip (f₀ : Option FileContent) (k : String) (v : Value)
    (h : (LocalDiskKvStore.create k v (LocalDiskKvStore.init f₀)).1 = Except.ok ()) :
    LocalDiskKvStore.init (some (LocalDiskKvStore.create k v (LocalDiskKvStore.init f₀)).2.1)
        = (LocalDiskKvStore.create k v (LocalDiskKvStore.init f₀)).2.1
    ∧ (LocalDiskKvStore.get k
        (LocalDiskKvStore.create k v (LocalDiskKvStore.init f₀)).2.1).1 = Except.ok v
    ∧ LocalDiskKvStore.init none = FileContent.good [] := by
  refine ⟨rfl, ?_, rfl⟩
  simp only [LocalDiskKvStore.create] at h ⊢
  rcases hf : LocalDiskKvStore.init f₀ with s | _
  · rw [hf] at h
    rcases hl : lookup s k with _ | o
    · rw [LocalDiskKvStore.safeOp_eq_ok _ _ _ _ (LocalDiskKvStore.opCreate_absent s k v hl)]
      show (LocalDiskKvStore.get k (FileContent.good (setKey s k v))).1 = Except.ok v
      simp only [LocalDiskKvStore.get]
      rw [LocalDiskKvStore.safeOp_eq_ok _ _ _ _
        (LocalDiskKvStore.opGet_present (setKey s k v) k v (lookup_setKey_self s k v))]
    · rw [LocalDiskKvStore.safeOp_eq_error _ _ _
        (LocalDiskKvStore.opCreate_present s k v o hl)] at h
      simp [Except.map] at h
  · rw [hf] at h
    rw [LocalDiskKvStore.safeOp_eq_error _ _ _ rfl] at h
    simp [Except.map] at h

/-- C6 witness: round-trip at a concrete input starting from no file. -/
theorem disk_persistence_roundtrip_witness :
    (LocalDiskKvStore.get keyB
      (LocalDiskKvStore.create keyB (Value.vNum 9) (LocalDiskKvStore.init none)).2.1).1
      = Except.ok (Value.vNum 9) :=
  (disk_persistence_roundtrip none keyB (Value.vNum 9) rfl).2.1

/-- C7 counterexample: the claim says the write path commits via a temporary
file plus atomic rename, so an interrupted write exposes only the fully-old or
fully-new store.  The code instead truncates kv_file in place and streams the
dump into it, so the truncated, not-yet-complete file is observable, and it is
neither the old nor the new contents and outside the states a
temp-file-and-rename write path can expose. -/
theorem inplace_write_exposes_partial_state :
    FileContent.corrupt
        ∈ LocalDiskKvStore.inPlaceWriteStates (FileContent.good []) [(keyA, Value.vNum 1)]
    ∧ FileContent.corrupt ≠ FileContent.good []
    ∧ FileContent.corrupt ≠ FileContent.good [(keyA, Value.vNum 1)]
    ∧ FileContent.corrupt
        ∉ tempFileRenameWriteStates (FileContent.good []) [(keyA, Value.vNum 1)] := by
  refine ⟨by decide, by decide, by decide, by decide⟩

/-- C7 (amended): the write step of _safe_op overwrites kv_file in place — the
open truncates it and the dump then fills it — so a read after an interruption
observes the old contents, the new contents, or a partial file that
pickle.load rejects as corrupt (surfacing as the StorageCorruption kind on the
next operation) rather than any mixed store. -/
theorem inplace_write_observes_old_partial_or_new (old : FileContent) (s : Store)
    (g : FileContent) (h : g ∈ LocalDiskKvStore.inPlaceWriteStates old s) :
    g = old ∨ g = FileContent.good s
    ∨ pickleLoad g = Except.error Err.unpicklingError := by
  simp only [LocalDiskKvStore.inPlaceWriteStates, List.mem_cons, List.not_mem_nil,
    or_false] at h
  rcases h with h | h | h
  · exact Or.inl h
  · exact Or.inr (Or.inr (by rw [h]; rfl))
  · exact Or.inr (Or.inl h)

/-- C7 witness: the amended write-interruption property at a concrete input. -/
theorem inplace_write_observes_old_partial_or_new_witness :
    FileContent.corrupt = FileContent.good []
    ∨ FileContent.corrupt = FileContent.good [(keyB, Value.vNull)]
    ∨ pickleLoad FileContent.corrupt = Except.error Err.unpicklingError :=
  inplace_write_observes_old_partial_or_new (FileContent.good []) [(keyB, Value.vNull)]
    FileContent.corrupt (by decide)

/-- C8: every operation against a backing file whose contents cannot be
decoded fails with UnpicklingError (the StorageCorruption kind) instead of
silently starting from an empty store, and writes nothing back to the file. -/
theorem corrupt_file_fails_fatal_without_write (op : Op) :
    LocalDiskKvStore.step FileContent.corrupt op
      = (Except.error Err.unpicklingError, FileContent.corrupt, []) := by
  cases op <;> rfl

/-- C9: starting from an empty store, any finite sequence of operations leaves
at most one value per key in the in-memory store, and the disk backend's file
holds exactly that store, so the same uniqueness holds on disk. -/
theorem keys_unique_after_any_ops (ops : List Op) (k : String) (v₁ v₂ : Value)
    (h₁ : (k, v₁) ∈ InMemoryKvStore.run ops) (h₂ : (k, v₂) ∈ InMemoryKvStore.run ops) :
    v₁ = v₂ ∧ LocalDiskKvStore.run ops = FileContent.good (InMemoryKvStore.run ops) := by
  constructor
  · exact mem_value_unique (InMemoryKvStore.run ops) k v₁ v₂
      (InMemoryKvStore.nodup_run_aux ops [] (by simp)) h₁ h₂
  · exact LocalDiskKvStore.run_eq_good ops []

/-- C9 witness: uniqueness after a concrete operation sequence. -/
theorem keys_unique_after_any_ops_witness :
    (Value.vNum 3 : Value) = Value.vNum 3
    ∧ LocalDiskKvStore.run [Op.create keyA (Value.vNum 3)]
        = FileContent.good (InMemoryKvStore.run [Op.create keyA (Value.vNum 3)]) :=
  keys_unique_after_any_ops [Op.create keyA (Value.vNum 3)] keyA (Value.vNum 3)
    (Value.vNum 3) (by decide) (by decide)

/-- C10: every successful disk operation performs exactly one write of the
store back to the file — including the read-only get, which on a present key
returns the value and writes back exactly the mapping it read, leaving the
file contents equal to what they were. -/
theorem get_rewrites_backing_file (s : Store) (k : String) (v : Value) (op : Op)
    (f : FileContent) (r : Ret)
    (h : lookup s k = some v)
    (hop : (LocalDiskKvStore.step f op).1 = Except.ok r) :
    LocalDiskKvStore.get k (FileContent.good s) = (Except.ok v, FileContent.good s, [s])
    ∧ (LocalDiskKvStore.step f op).2.2.length = 1 := by
  constructor
  · simp only [LocalDiskKvStore.get]
    rw [LocalDiskKvStore.safeOp_eq_ok _ _ _ _ (LocalDiskKvStore.opGet_present s k v h)]
  · cases op with
    | create k' v' =>
      simp only [LocalDiskKvStore.step, LocalDiskKvStore.create] at hop ⊢
      obtain ⟨a, ha, _⟩ := except_map_eq_ok _ _ _ hop
      obtain ⟨b, hb, _⟩ := except_map_eq_ok _ _ _ ha
      obtain ⟨kv, hkv⟩ := LocalDiskKvStore.safeOp_ok_inv _ _ _ hb
      rw [LocalDiskKvStore.safeOp_eq_ok _ _ _ _ hkv]
      rfl
    | replace k' v' =>
      simp only [LocalDiskKvStore.step, LocalDiskKvStore.replace] at hop ⊢
      obtain ⟨a, ha, _⟩ := except_map_eq_ok _ _ _ hop
      obtain ⟨kv, hkv⟩ := LocalDiskKvStore.safeOp_ok_inv _ _ _ ha
      rw [LocalDiskKvStore.safeOp_eq_ok _ _ _ _ hkv]
      rfl
    | delete k' =>
      simp only [LocalDiskKvStore.step, LocalDiskKvStore.delete] at hop ⊢
      obtain ⟨a, ha, _⟩ := except_map_eq_ok _ _ _ hop
      obtain ⟨kv, hkv⟩ := LocalDiskKvStore.safeOp_ok_inv _ _ _ ha
      rw [LocalDiskKvStore.safeOp_eq_ok _ _ _ _ hkv]
      rfl
    | get k' =>
      simp only [LocalDiskKvStore.step, LocalDiskKvStore.get] at hop ⊢
      obtain ⟨a, ha, _⟩ := except_map_eq_ok _ _ _ hop
      obtain ⟨kv, hkv⟩ := LocalDiskKvStore.safeOp_ok_inv _ _ _ ha
      rw [LocalDiskKvStore.safeOp_eq_ok _ _ _ _ hkv]
      rfl

/-- C10 witness: a successful get at a concrete input writes back exactly the
mapping it read. -/
theorem get_rewrites_backing_file_witness :
    LocalDiskKvStore.get keyA (FileContent.good [(keyA, Value.vNum 7)])
      = (Except.ok (Value.vNum 7), FileContent.good [(keyA, Value.vNum 7)],
          [[(keyA, Value.vNum 7)]]) :=
  (get_rewrites_backing_file [(keyA, Value.vNum 7)] keyA (Value.vNum 7) (Op.get keyA)
    (FileContent.good [(keyA, Value.vNum 7)]) (Ret.val (Value.vNum 7)) rfl rfl).1

end KvExercise
